import Mathlib

/-!
Verification development for the icepap host library
(ALBA-Synchrotron/pyIcePAP, package `icepap`).

The Python modules relevant here are shallowly embedded as Lean
functions:

* `icepap/communication.py` : command framing and reply parsing of
  `IcePAPCommunication.send_cmd`, and the binary frame building of
  `SocketCom.send_binary`.  Text is modelled as `List Char`; the raw
  socket reply is passed in as a parameter (the socket layer returns a
  reply exactly when the wire string contains a `#` or a `?`).
* `icepap/utils.py` : the `State` status-word decoder and
  `get_ctrl_item`.
* `icepap/controller.py` : `find_axes`, `find_racks`, `get_fpos`, and
  the `connected` property.
* `icepap/axis.py` : `get_ushort_list` and `set_ecam_table` (the
  per-value byte packing done by `struct.pack` is abstracted as an
  encoder argument; only byte counts matter to the claims).
* `icepap/group.py` : the `ensure_power` context manager, modelled as a
  pure transformation of the device power state.
-/

namespace Icepap

/-- Boolean test that the first list is a leading segment of the second
(models Python `str.startswith`). -/
def isPrefixL : List Char → List Char → Bool
  | [], _ => true
  | _ :: _, [] => false
  | a :: as, b :: bs => a == b && isPrefixL as bs

/-- Boolean substring containment (models Python `sub in s`). -/
def containsL (sub : List Char) : List Char → Bool
  | [] => isPrefixL sub []
  | c :: t => isPrefixL sub (c :: t) || containsL sub t

/-- Characters before the first occurrence of `sep` (models Python
`s.split(sep)[0]`). -/
def takeUntilSub (sep : List Char) : List Char → List Char
  | [] => []
  | c :: t => if isPrefixL sep (c :: t) then [] else c :: takeUntilSub sep t

/-- Characters after the first occurrence of `sep` (models Python
`s.split(sep, 1)[1]`, empty when `sep` does not occur). -/
def dropPastSub (sep : List Char) : List Char → List Char
  | [] => []
  | c :: t => if isPrefixL sep (c :: t) then (c :: t).drop sep.length else dropPastSub sep t

/-- Split on a single separator character, keeping empty fields (models
Python `s.split(ch)`). -/
def splitChar (sep : Char) : List Char → List (List Char)
  | [] => [[]]
  | c :: t =>
    match splitChar sep t with
    | [] => [[c]]
    | h :: rt => if c == sep then [] :: h :: rt else (c :: h) :: rt

/-- Python whitespace set used by `str.split()` with no argument. -/
def isSpaceL (c : Char) : Bool :=
  c == ' ' || c == '\t' || c == '\n' || c == '\r' || c == '\x0b' || c == '\x0c'

/-- Split on runs of whitespace, discarding empty fields (models Python
`s.split()` with no argument). -/
def splitWS : List Char → List (List Char)
  | [] => []
  | c :: t =>
    if isSpaceL c then splitWS t
    else
      match t with
      | [] => [[c]]
      | d :: _ =>
        if isSpaceL d then [c] :: splitWS t
        else
          match splitWS t with
          | [] => [[c]]
          | h :: rt => (c :: h) :: rt

/-- Wire form of a command: the string actually written to the socket
and whether acknowledge framing is in use. -/
structure Framed where
  wire : List Char
  ack : Bool
  deriving DecidableEq

/-- The commands that must not be acknowledged, from the tuple
`bad_cmds` in `IcePAPCommunication.send_cmd`. -/
def badCmds : List (List Char) := [("PROG").data, ("*PROG").data, ("RESET").data, (":").data]

/-- Models Python `cmd.startswith(tuple_of_prefixes)`. -/
def startsWithAny (cmd : List Char) (ps : List (List Char)) : Bool :=
  ps.any (fun p => isPrefixL p cmd)

/-- Embeds the classification part of `IcePAPCommunication.send_cmd`
(communication.py lines 73-89): queries, the excluded commands and the
three large-payload commands go out as `cmd + CR` without acknowledge;
everything else is sent as `#cmd + CR` with acknowledge.  The
`cmd.upper().strip()` on line 73 discards its result, so the original
command string is classified. -/
def classifyCmd (cmd : List Char) : Framed :=
  let flgRead := containsL ['?'] cmd
  let flgEcamdat := containsL (("*ECAMDAT").data) cmd
  let flgListdat := containsL (("*LISTDAT").data) cmd
  let flgPardat := containsL (("*PARDAT").data) cmd
  if flgRead || startsWithAny cmd badCmds || flgEcamdat || flgListdat || flgPardat then
    ⟨cmd ++ ['\r'], false⟩
  else
    ⟨('#') :: (cmd ++ ['\r']), true⟩

/-- Embeds `SocketCom.send_cmd`: the socket layer waits for an answer
exactly when the wire string contains `#` or `?`. -/
def waitAnswer (wire : List Char) : Bool :=
  containsL ['#'] wire || containsL ['?'] wire

/-- Multi-line reply handling of `IcePAPCommunication.send_cmd` (lines
101-106): the segment between the first two `$` is split on newlines,
the first and last pieces are dropped, and each kept line is truncated
at its first carriage return. -/
def parseMultiline (ans : List Char) : List (List Char) :=
  let seg := takeUntilSub ['$'] (dropPastSub ['$'] ans)
  let lines := ((splitChar ('\n') seg).drop 1).dropLast
  lines.map (fun line => takeUntilSub ['\r'] line)

/-- Embeds `IcePAPCommunication.send_cmd` (communication.py lines
65-115) given the raw socket reply `raw`.  `Except.error` stands for a
raised `RuntimeError` and carries the text interpolated into the error
message; `Except.ok none` is a `None` result and `Except.ok (some ls)`
a list of strings. -/
def send_cmd (cmd : List Char) (raw : List Char) :
    Except (List Char) (Option (List (List Char))) :=
  let f := classifyCmd cmd
  let ans : Option (List Char) := if waitAnswer f.wire then some raw else none
  if f.ack then
    match ans with
    | some a => if containsL (("OK").data) a then Except.ok none else Except.error a
    | none => Except.error (("TypeError").data)
  else
    match ans with
    | none => Except.ok none
    | some a =>
      if containsL ['$'] a then Except.ok (some (parseMultiline a))
      else
        let line := takeUntilSub ['\r', '\n'] a
        match splitWS line with
        | [] => Except.ok none
        | _ :: rest =>
          match rest with
          | [] => Except.ok none
          | r0 :: rs =>
            if r0 == (("ERROR").data) then Except.error line
            else Except.ok (some (r0 :: rs))

theorem isPrefixL_iff (p : List Char) : ∀ l, isPrefixL p l = true ↔ ∃ t, l = p ++ t := by
  induction p with
  | nil =>
    intro l
    simp [isPrefixL]
  | cons a as ih =>
    intro l
    cases l with
    | nil =>
      simp [isPrefixL]
    | cons b bs =>
      simp only [isPrefixL, Bool.and_eq_true, beq_iff_eq, ih bs]
      constructor
      · rintro ⟨rfl, t, rfl⟩
        exact ⟨t, rfl⟩
      · rintro ⟨t, ht⟩
        cases ht
        exact ⟨rfl, t, rfl⟩

theorem containsL_iff (sub : List Char) : ∀ l, containsL sub l = true ↔ ∃ a b, l = a ++ sub ++ b := by
  intro l
  induction l with
  | nil =>
    simp only [containsL, isPrefixL_iff]
    constructor
    · rintro ⟨t, ht⟩
      have hsub : sub = [] := by
        cases sub with
        | nil => rfl
        | cons c cs => simp at ht
      have ht' : t = [] := by
        cases hsub
        simpa using ht.symm
      exact ⟨[], [], by simp [hsub, ht']⟩
    · rintro ⟨a, b, hab⟩
      have ha : a ++ sub = [] ∧ b = [] := List.append_eq_nil.mp hab.symm
      have hs : a = [] ∧ sub = [] := List.append_eq_nil.mp ha.1
      exact ⟨[], by simp [hs.2]⟩
  | cons c t ih =>
    simp only [containsL, Bool.or_eq_true, isPrefixL_iff, ih]
    constructor
    · rintro (⟨u, hu⟩ | ⟨a, b, hab⟩)
      · exact ⟨[], u, by simpa using hu⟩
      · exact ⟨c :: a, b, by simp [hab]⟩
    · rintro ⟨a, b, hab⟩
      cases a with
      | nil =>
        exact Or.inl ⟨b, by simpa using hab⟩
      | cons a0 as =>
        have : c = a0 ∧ t = as ++ sub ++ b := by
          simpa using hab
        exact Or.inr ⟨as, b, this.2⟩

theorem isPrefixL_append_self (p t : List Char) : isPrefixL p (p ++ t) = true := by
  exact (isPrefixL_iff p (p ++ t)).mpr ⟨t, rfl⟩

theorem containsL_of_head (c : Char) (l : List Char) : containsL [c] (c :: l) = true := by
  exact (containsL_iff [c] (c :: l)).mpr ⟨[], l, rfl⟩

/-- When `classifyCmd` reports acknowledge framing, the wire string is
`#` followed by the command and a carriage return. -/
theorem classifyCmd_ack_wire (cmd : List Char) (h : (classifyCmd cmd).ack = true) :
    classifyCmd cmd = ⟨('#') :: (cmd ++ ['\r']), true⟩ := by
  unfold classifyCmd at h ⊢
  by_cases hc :
      (containsL ['?'] cmd || startsWithAny cmd badCmds
        || containsL (("*ECAMDAT").data) cmd || containsL (("*LISTDAT").data) cmd
        || containsL (("*PARDAT").data) cmd) = true
  · simp [hc] at h
  · simp only [Bool.not_eq_true] at hc
    simp [hc]

end Icepap

namespace Icepap

instance {ε α : Type} [DecidableEq ε] [DecidableEq α] : DecidableEq (Except ε α) := fun x y =>
  match x, y with
  | Except.error e, Except.error f =>
    if h : e = f then isTrue (by rw [h]) else isFalse (by simp [h])
  | Except.error _, Except.ok _ => isFalse (by simp)
  | Except.ok _, Except.error _ => isFalse (by simp)
  | Except.ok a, Except.ok b =>
    if h : a = b then isTrue (by rw [h]) else isFalse (by simp [h])

theorem send_cmd_of_ack (cmd raw : List Char) (h : (classifyCmd cmd).ack = true) :
    send_cmd cmd raw =
      if containsL (("OK").data) raw then Except.ok none else Except.error raw := by
  have hw := classifyCmd_ack_wire cmd h
  simp only [send_cmd, hw, waitAnswer, containsL_of_head, Bool.true_or, if_true]

theorem send_cmd_of_query (cmd raw : List Char)
    (hack : (classifyCmd cmd).ack = false)
    (hwait : waitAnswer (classifyCmd cmd).wire = true)
    (hdollar : containsL ['$'] raw = false) :
    send_cmd cmd raw =
      match splitWS (takeUntilSub ['\r', '\n'] raw) with
      | [] => Except.ok none
      | _ :: rest =>
        match rest with
        | [] => Except.ok none
        | r0 :: rs =>
          if r0 == (("ERROR").data) then Except.error (takeUntilSub ['\r', '\n'] raw)
          else Except.ok (some (r0 :: rs)) := by
  simp only [send_cmd, hack, hwait, hdollar, if_true, if_false, Bool.false_eq_true]

end Icepap

namespace Icepap

/-- Claim C3: every command containing a question mark is sent as the
command plus a trailing carriage return, with no hash and no
acknowledge; every command starting with PROG, *PROG, RESET or a colon,
or containing *ECAMDAT, *LISTDAT or *PARDAT, is likewise sent without
hash and without acknowledge; every other write command is prepended
with a hash and uses acknowledge framing, so it can only return
success with no payload or raise. -/
theorem spec_c3 (cmd : List Char) :
    (containsL ['?'] cmd = true →
      classifyCmd cmd = ⟨cmd ++ ['\r'], false⟩) ∧
    ((startsWithAny cmd badCmds || containsL (("*ECAMDAT").data) cmd
        || containsL (("*LISTDAT").data) cmd || containsL (("*PARDAT").data) cmd) = true →
      classifyCmd cmd = ⟨cmd ++ ['\r'], false⟩) ∧
    (containsL ['?'] cmd = false →
      (startsWithAny cmd badCmds || containsL (("*ECAMDAT").data) cmd
        || containsL (("*LISTDAT").data) cmd || containsL (("*PARDAT").data) cmd) = false →
      classifyCmd cmd = ⟨('#') :: (cmd ++ ['\r']), true⟩ ∧
      ∀ raw, send_cmd cmd raw = Except.ok none ∨ send_cmd cmd raw = Except.error raw) := by
  refine ⟨?_, ?_, ?_⟩
  · intro hq
    unfold classifyCmd
    simp [hq]
  · intro hx
    unfold classifyCmd
    revert hx
    cases containsL ['?'] cmd <;> cases startsWithAny cmd badCmds <;>
      cases containsL (("*ECAMDAT").data) cmd <;>
      cases containsL (("*LISTDAT").data) cmd <;>
      cases containsL (("*PARDAT").data) cmd <;> simp
  · intro hq hx
    have hcl : classifyCmd cmd = ⟨('#') :: (cmd ++ ['\r']), true⟩ := by
      unfold classifyCmd
      simp only [Bool.or_eq_true, not_or] at hx
      simp [hq, hx]
    refine ⟨hcl, fun raw => ?_⟩
    have hs := send_cmd_of_ack cmd raw (by rw [hcl])
    by_cases hok : containsL (("OK").data) raw = true
    · exact Or.inl (by rw [hs, if_pos hok])
    · exact Or.inr (by rw [hs, if_neg hok])

/-- Witness for C3 at concrete commands: a query, an excluded write and
an acknowledged write. -/
theorem spec_c3_witness :
    classifyCmd (("?POS 1").data) = ⟨(("?POS 1\r").data), false⟩ ∧
    classifyCmd (("RESET").data) = ⟨(("RESET\r").data), false⟩ ∧
    (classifyCmd (("POWER 1 ON").data) = ⟨('#') :: ((("POWER 1 ON").data) ++ ['\r']), true⟩ ∧
      (send_cmd (("POWER 1 ON").data) (("POWER OK").data) = Except.ok none ∨
        send_cmd (("POWER 1 ON").data) (("POWER OK").data) =
          Except.error (("POWER OK").data))) :=
  ⟨by have := (spec_c3 (("?POS 1").data)).1 (by decide); simpa using this,
   by have := (spec_c3 (("RESET").data)).2.1 (by decide); simpa using this,
   by
    have h := (spec_c3 (("POWER 1 ON").data)).2.2 (by decide) (by decide)
    exact ⟨h.1, h.2 (("POWER OK").data)⟩⟩

/-- Claim C1 is false as stated: the acknowledge check is substring
containment of OK, so the reply "ERROR BROKEN" (of the form ERROR
reason) is accepted as success because BROKEN contains OK, instead of
raising. -/
theorem spec_c1_cex :
    (classifyCmd (("POWER 1 ON").data)).ack = true ∧
    (("ERROR BROKEN").data) ≠ (("OK").data) ∧
    send_cmd (("POWER 1 ON").data) (("ERROR BROKEN").data) = Except.ok none := by
  decide

/-- Claim C1 (amended): for every command sent with acknowledge
framing, send_cmd returns success with no payload exactly when the
reply contains OK as a substring (in particular for the reply OK
itself), and raises, carrying the reply, whenever the reply does not
contain OK - including an ERROR reason whose text does not contain
OK. -/
theorem spec_c1 (cmd raw : List Char) (h : (classifyCmd cmd).ack = true) :
    (send_cmd cmd raw = Except.ok none ↔ ∃ a b, raw = a ++ (("OK").data) ++ b) ∧
    ((¬ ∃ a b, raw = a ++ (("OK").data) ++ b) → send_cmd cmd raw = Except.error raw) := by
  have hs := send_cmd_of_ack cmd raw h
  have hiff := containsL_iff (("OK").data) raw
  constructor
  · constructor
    · intro hok
      rw [hs] at hok
      by_cases hc : containsL (("OK").data) raw = true
      · exact hiff.mp hc
      · rw [if_neg hc] at hok
        exact absurd hok (by simp)
    · intro hex
      rw [hs, if_pos (hiff.mpr hex)]
  · intro hnex
    have hc : containsL (("OK").data) raw = false := by
      cases hcb : containsL (("OK").data) raw
      · rfl
      · exact absurd (hiff.mp hcb) hnex
    rw [hs, if_neg (by simp [hc])]

/-- Witness for C1 (amended) at the command POWER 1 ON with the
device reply POWER OK. -/
theorem spec_c1_witness :
    send_cmd (("POWER 1 ON").data) (("POWER OK").data) = Except.ok none :=
  (spec_c1 (("POWER 1 ON").data) (("POWER OK").data) (by decide)).1.mpr
    ⟨(("POWER ").data), [], by decide⟩

/-- Claim C2 is false as stated: for the query command ?POS 1, the
reply BLAH 42 begins with neither the command nor its first word, yet
send_cmd does not raise - it drops the first token unconditionally and
returns the rest. -/
theorem spec_c2_cex :
    isPrefixL (("?POS 1").data) (("BLAH 42\r\n").data) = false ∧
    isPrefixL (("?POS").data) (("BLAH 42\r\n").data) = false ∧
    send_cmd (("?POS 1").data) (("BLAH 42\r\n").data) = Except.ok (some [("42").data]) := by
  decide

/-- Claim C2 (amended): for every non-acknowledged command whose wire
form still expects a reply, and a single-line reply, send_cmd splits
the first line on whitespace and drops the first token unconditionally,
never comparing it with the command: no remaining token gives None, a
first remaining token equal to ERROR - hence any reply of the form
prefix ERROR message - raises a RuntimeError, and otherwise the
remaining tokens are returned. -/
theorem spec_c2 (cmd raw : List Char)
    (hack : (classifyCmd cmd).ack = false)
    (hwait : waitAnswer (classifyCmd cmd).wire = true)
    (hdollar : containsL ['$'] raw = false) :
    (splitWS (takeUntilSub ['\r', '\n'] raw) = [] → send_cmd cmd raw = Except.ok none) ∧
    (∀ p, splitWS (takeUntilSub ['\r', '\n'] raw) = [p] → send_cmd cmd raw = Except.ok none) ∧
    (∀ p m, splitWS (takeUntilSub ['\r', '\n'] raw) = p :: (("ERROR").data) :: m →
      send_cmd cmd raw = Except.error (takeUntilSub ['\r', '\n'] raw)) ∧
    (∀ p r0 rs, splitWS (takeUntilSub ['\r', '\n'] raw) = p :: r0 :: rs →
      r0 ≠ (("ERROR").data) →
      send_cmd cmd raw = Except.ok (some (r0 :: rs))) := by
  have hs := send_cmd_of_query cmd raw hack hwait hdollar
  refine ⟨?_, ?_, ?_, ?_⟩
  · intro h0
    rw [hs, h0]
  · intro p h0
    rw [hs, h0]
  · intro p m h0
    rw [hs, h0]
    simp
  · intro p r0 rs h0 hne
    rw [hs, h0]
    simp [hne]

/-- Witness for C2 (amended) at the query ?POS 1 with the echoing
reply ?POS 42. -/
theorem spec_c2_witness :
    send_cmd (("?POS 1").data) (("?POS 42\r\n").data) = Except.ok (some [("42").data]) :=
  (spec_c2 (("?POS 1").data) (("?POS 42\r\n").data) (by decide) (by decide)
      (by decide)).2.2.2 (("?POS").data) (("42").data) [] (by decide) (by decide)

end Icepap

namespace Icepap

/-- Little-endian byte expansion: the low `k` bytes of `n`, least
significant first.  Models `struct.pack` of an unsigned integer
truncated to `k` bytes, as done by `struct.pack('L', x)[:4]` in
`SocketCom.send_binary`. -/
def le_bytes : Nat → Nat → List Nat
  | 0, _ => []
  | k + 1, n => n % 256 :: le_bytes k (n / 256)

/-- Recombine little-endian bytes into a number (used to certify the
byte encoding; not part of the source). -/
def read_le (bs : List Nat) : Nat :=
  bs.foldr (fun b acc => b + 256 * acc) 0

/-- Group a byte sequence into little-endian 16-bit words, as
`struct.unpack('<nH', bytes)` does (used by
`IcePAPAxis.get_ushort_list`). -/
def bytes_to_ushorts : List Nat → List Nat
  | b0 :: b1 :: rest => (b0 + 256 * b1) :: bytes_to_ushorts rest
  | _ => []

/-- Embeds `IcePAPAxis.get_ushort_list` (axis.py lines 47-70): the data
values are packed value by value into bytes (`struct.pack`; 4 bytes per
value for DWORD and FLOAT, 8 for DFLOAT, 1 for BYTE - the per-value
byte encoding is the `enc` argument) and the byte stream is re-read as
little-endian unsigned 16-bit words. -/
def get_ushort_list {α : Type} (enc : α → List Nat) (ldata : List α) : List Nat :=
  bytes_to_ushorts ((ldata.map enc).flatten)

/-- Embeds `SocketCom.send_binary` (communication.py lines 183-203) as
the byte sequence written to the socket: a 12-byte header of three
little-endian uint32 fields - start mark 0xA5AA555A, word count,
checksum masked to 32 bits - then each payload word as little-endian
uint16, then a carriage-return byte. -/
def send_binary (P : List Nat) : List Nat :=
  let startmark := 0xa5aa555a
  let nworddata := P.length
  let checksum := P.sum
  let maskedchksum := checksum &&& 0xffffffff
  le_bytes 4 startmark ++ le_bytes 4 nworddata ++ le_bytes 4 maskedchksum
    ++ (P.map (fun w => le_bytes 2 w)).flatten ++ [13]

theorem le_bytes_length (k : Nat) : ∀ n, (le_bytes k n).length = k := by
  induction k with
  | zero => intro n; rfl
  | succ k ih => intro n; simp [le_bytes, ih]

theorem read_le_le_bytes (k : Nat) : ∀ n, read_le (le_bytes k n) = n % 256 ^ k := by
  induction k with
  | zero => intro n; simp [le_bytes, read_le, Nat.mod_one]
  | succ k ih =>
    intro n
    have : read_le (le_bytes (k + 1) n) = n % 256 + 256 * read_le (le_bytes k (n / 256)) := by
      simp [le_bytes, read_le]
    rw [this, ih, pow_succ, mul_comm (256 ^ k) 256, Nat.mod_mul]

theorem bytes_to_ushorts_pairs (P : List Nat) (h : ∀ w ∈ P, w < 65536) :
    bytes_to_ushorts ((P.map (fun w => le_bytes 2 w)).flatten) = P := by
  induction P with
  | nil => rfl
  | cons w t ih =>
    have hw : w < 65536 := h w (by simp)
    have ht := ih (fun x hx => h x (by simp [hx]))
    have hval : w % 256 + 256 * (w / 256 % 256) = w := by
      have hm : w % (256 * 256) = w % 256 + 256 * (w / 256 % 256) := Nat.mod_mul
      have : w % (256 * 256) = w := Nat.mod_eq_of_lt (by omega)
      omega
    calc bytes_to_ushorts (((w :: t).map (fun w => le_bytes 2 w)).flatten)
        = (w % 256 + 256 * (w / 256 % 256))
            :: bytes_to_ushorts ((t.map (fun w => le_bytes 2 w)).flatten) := rfl
      _ = w :: t := by rw [hval, ht]

theorem pair_bytes_length (P : List Nat) :
    ((P.map (fun w => le_bytes 2 w)).flatten).length = 2 * P.length := by
  induction P with
  | nil => rfl
  | cons w t ih =>
    rw [List.map_cons, List.flatten_cons, List.length_append, le_bytes_length, ih,
      List.length_cons]
    ring

theorem bytes_to_ushorts_length : ∀ bs : List Nat, (bytes_to_ushorts bs).length = bs.length / 2
  | [] => by simp [bytes_to_ushorts]
  | [b] => by simp [bytes_to_ushorts]
  | b0 :: b1 :: rest => by
    have ih := bytes_to_ushorts_length rest
    simp [bytes_to_ushorts, ih]
    omega

/-- Claim C4: for every payload of unsigned 16-bit words, send_binary
emits the 12-byte header of three little-endian uint32 fields - start
mark 0xA5AA555A, word count equal to the payload length, checksum
equal to the payload sum mod 2^32 - followed by the payload as
little-endian uint16 words and a trailing carriage return; and a table
whose values pack to 4 bytes each (FLOAT or DWORD) reinterprets to 2
words per value, so 3 floats give word count 6. -/
theorem spec_c4 {α : Type} (enc : α → List Nat) (henc : ∀ x, (enc x).length = 4)
    (l : List α) (P : List Nat) (hP : ∀ w ∈ P, w < 65536) :
    send_binary P =
      le_bytes 4 0xa5aa555a ++ le_bytes 4 P.length ++ le_bytes 4 (P.sum % 4294967296)
        ++ (P.map (fun w => le_bytes 2 w)).flatten ++ [13] ∧
    read_le (le_bytes 4 0xa5aa555a) = 0xa5aa555a ∧
    read_le (le_bytes 4 P.length) = P.length % 4294967296 ∧
    (P.length < 4294967296 → read_le (le_bytes 4 P.length) = P.length) ∧
    read_le (le_bytes 4 (P.sum % 4294967296)) = P.sum % 4294967296 ∧
    bytes_to_ushorts ((P.map (fun w => le_bytes 2 w)).flatten) = P ∧
    (send_binary P).length = 13 + 2 * P.length ∧
    (get_ushort_list enc l).length = 2 * l.length := by
  have hmask : P.sum &&& 0xffffffff = P.sum % 4294967296 := by
    have h := Nat.and_pow_two_sub_one_eq_mod P.sum 32
    norm_num at h
    exact h
  have h32 : (4294967296 : Nat) = 256 ^ 4 := by norm_num
  refine ⟨?_, ?_, ?_, ?_, ?_, ?_, ?_, ?_⟩
  · simp only [send_binary, hmask]
  · rfl
  · rw [read_le_le_bytes, h32]
  · intro hlt
    rw [read_le_le_bytes]
    have h4 : (256 : Nat) ^ 4 = 4294967296 := by norm_num
    exact Nat.mod_eq_of_lt (by omega)
  · rw [read_le_le_bytes, ← h32]
    exact Nat.mod_mod_of_dvd _ dvd_rfl
  · exact bytes_to_ushorts_pairs P hP
  · simp only [send_binary, List.length_append, le_bytes_length, pair_bytes_length,
      List.length_cons, List.length_nil]
    omega
  · have hflat : ((l.map enc).flatten).length = 4 * l.length := by
      induction l with
      | nil => rfl
      | cons x t ih =>
        rw [List.map_cons, List.flatten_cons, List.length_append, henc, ih, List.length_cons]
        ring
    show (bytes_to_ushorts ((l.map enc).flatten)).length = 2 * l.length
    rw [bytes_to_ushorts_length, hflat]
    omega

/-- Witness for C4 at the payload [1, 2, 3] and a 3-value table with a
4-byte-per-value encoding. -/
theorem spec_c4_witness :
    send_binary [1, 2, 3] =
      le_bytes 4 0xa5aa555a ++ le_bytes 4 3 ++ le_bytes 4 6
        ++ (([1, 2, 3] : List Nat).map (fun w => le_bytes 2 w)).flatten ++ [13] ∧
    (get_ushort_list (fun n : Nat => le_bytes 4 n) [0, 1, 2]).length = 6 := by
  have h := spec_c4 (fun n : Nat => le_bytes 4 n) (fun x => le_bytes_length 4 x)
    [0, 1, 2] [1, 2, 3] (by decide)
  refine ⟨?_, ?_⟩
  · have h1 := h.1
    norm_num at h1
    exact h1
  · have h2 := h.2.2.2.2.2.2.2
    norm_num at h2
    exact h2

end Icepap

namespace Icepap

namespace State

/-- Bit 0 of the status register (utils.py `State.is_present`). -/
def is_present (r : Nat) : Bool := ((r >>> 0) &&& 1) != 0

/-- Bit 1 (utils.py `State.is_alive`). -/
def is_alive (r : Nat) : Bool := ((r >>> 1) &&& 1) != 0

/-- Bits 2-3 (utils.py `State.get_mode_code`). -/
def get_mode_code (r : Nat) : Nat := (r >>> 2) &&& 3

/-- The `mode` table of `State.status_meaning` (utils.py). -/
def status_meaning_mode : Nat → Option String
  | 0 => some ("OPER")
  | 1 => some ("PROG")
  | 2 => some ("TEST")
  | 3 => some ("FAIL")
  | _ => none

/-- utils.py `State.get_mode_str`; a `none` models the `KeyError` a
Python dict lookup would raise (unreachable: the code is 2 bits). -/
def get_mode_str (r : Nat) : Option String := status_meaning_mode (get_mode_code r)

/-- Bits 4-6 compared with zero (utils.py `State.is_disabled`). -/
def is_disabled (r : Nat) : Bool := decide (0 < (r >>> 4) &&& 7)

/-- Bits 4-6 (utils.py `State.get_disable_code`). -/
def get_disable_code (r : Nat) : Nat := (r >>> 4) &&& 7

/-- Bits 7-8 (utils.py `State.get_indexer_code`). -/
def get_indexer_code (r : Nat) : Nat := (r >>> 7) &&& 3

/-- Bit 9 (utils.py `State.is_ready`). -/
def is_ready (r : Nat) : Bool := ((r >>> 9) &&& 1) != 0

/-- Bit 10 (utils.py `State.is_moving`). -/
def is_moving (r : Nat) : Bool := ((r >>> 10) &&& 1) != 0

/-- Bit 11 (utils.py `State.is_settling`). -/
def is_settling (r : Nat) : Bool := ((r >>> 11) &&& 1) != 0

/-- Bit 12 (utils.py `State.is_outofwin`). -/
def is_outofwin (r : Nat) : Bool := ((r >>> 12) &&& 1) != 0

/-- Bit 13 (utils.py `State.is_warning`). -/
def is_warning (r : Nat) : Bool := ((r >>> 13) &&& 1) != 0

/-- Bits 14-17 (utils.py `State.get_stop_code`). -/
def get_stop_code (r : Nat) : Nat := (r >>> 14) &&& 15

/-- Bit 18 (utils.py `State.is_limit_positive`). -/
def is_limit_positive (r : Nat) : Bool := ((r >>> 18) &&& 1) != 0

/-- Bit 19 (utils.py `State.is_limit_negative`). -/
def is_limit_negative (r : Nat) : Bool := ((r >>> 19) &&& 1) != 0

/-- Bit 20 (utils.py `State.is_inhome`). -/
def is_inhome (r : Nat) : Bool := ((r >>> 20) &&& 1) != 0

/-- Bit 21 (utils.py `State.is_5vpower`). -/
def is_5vpower (r : Nat) : Bool := ((r >>> 21) &&& 1) != 0

/-- Bit 22 (utils.py `State.is_verserr`). -/
def is_verserr (r : Nat) : Bool := ((r >>> 22) &&& 1) != 0

/-- Bit 23 (utils.py `State.is_poweron`). -/
def is_poweron (r : Nat) : Bool := ((r >>> 23) &&& 1) != 0

/-- Bits 24-31 (utils.py `State.get_info_code`). -/
def get_info_code (r : Nat) : Nat := (r >>> 24) &&& 255

end State

theorem bool_bit_eq (x : Nat) : ((x &&& 1) != 0) = decide (x % 2 = 1) := by
  have h : x &&& 1 = x % 2 := by
    simp
  rw [h]
  rcases Nat.mod_two_eq_zero_or_one x with h2 | h2 <;> simp [h2]

theorem mask_bits (x j : Nat) : x &&& (2 ^ j - 1) = x % 2 ^ j :=
  Nat.and_pow_two_sub_one_eq_mod x j

/-- Claim C5: every named accessor of the State decoder returns the
field fixed by the documented bit layout (present bit 0, alive bit 1,
mode bits 2-3, disable bits 4-6, indexer bits 7-8, ready bit 9, moving
bit 10, settling bit 11, outofwin bit 12, warning bit 13, stopcode bits
14-17, positive limit bit 18, negative limit bit 19, home bit 20, aux
5V power bit 21, version error bit 22, power-on bit 23, info bits
24-31); and the word 0x00205013 decodes to present, alive, mode OPER,
disable code 1, not ready, not moving, stop code 1 and aux 5V power
on. -/
theorem spec_c5 (r : Nat) :
    State.is_present r = decide (r / 2 ^ 0 % 2 = 1) ∧
    State.is_alive r = decide (r / 2 ^ 1 % 2 = 1) ∧
    State.get_mode_code r = r / 2 ^ 2 % 2 ^ 2 ∧
    State.get_disable_code r = r / 2 ^ 4 % 2 ^ 3 ∧
    State.is_disabled r = decide (0 < r / 2 ^ 4 % 2 ^ 3) ∧
    State.get_indexer_code r = r / 2 ^ 7 % 2 ^ 2 ∧
    State.is_ready r = decide (r / 2 ^ 9 % 2 = 1) ∧
    State.is_moving r = decide (r / 2 ^ 10 % 2 = 1) ∧
    State.is_settling r = decide (r / 2 ^ 11 % 2 = 1) ∧
    State.is_outofwin r = decide (r / 2 ^ 12 % 2 = 1) ∧
    State.is_warning r = decide (r / 2 ^ 13 % 2 = 1) ∧
    State.get_stop_code r = r / 2 ^ 14 % 2 ^ 4 ∧
    State.is_limit_positive r = decide (r / 2 ^ 18 % 2 = 1) ∧
    State.is_limit_negative r = decide (r / 2 ^ 19 % 2 = 1) ∧
    State.is_inhome r = decide (r / 2 ^ 20 % 2 = 1) ∧
    State.is_5vpower r = decide (r / 2 ^ 21 % 2 = 1) ∧
    State.is_verserr r = decide (r / 2 ^ 22 % 2 = 1) ∧
    State.is_poweron r = decide (r / 2 ^ 23 % 2 = 1) ∧
    State.get_info_code r = r / 2 ^ 24 % 2 ^ 8 ∧
    (State.is_present 0x00205013 = true ∧ State.is_alive 0x00205013 = true ∧
      State.get_mode_str 0x00205013 = some ("OPER") ∧
      State.get_disable_code 0x00205013 = 1 ∧ State.is_ready 0x00205013 = false ∧
      State.is_moving 0x00205013 = false ∧ State.get_stop_code 0x00205013 = 1 ∧
      State.is_5vpower 0x00205013 = true) := by
  have hb : ∀ k : Nat, ((r >>> k) &&& 1 != 0) = decide (r / 2 ^ k % 2 = 1) := by
    intro k
    rw [Nat.shiftRight_eq_div_pow, bool_bit_eq]
  have hm : ∀ k j : Nat, (r >>> k) &&& (2 ^ j - 1) = r / 2 ^ k % 2 ^ j := by
    intro k j
    rw [Nat.shiftRight_eq_div_pow, mask_bits]
  have h3 : (3 : Nat) = 2 ^ 2 - 1 := by norm_num
  have h7 : (7 : Nat) = 2 ^ 3 - 1 := by norm_num
  have h15 : (15 : Nat) = 2 ^ 4 - 1 := by norm_num
  have h255 : (255 : Nat) = 2 ^ 8 - 1 := by norm_num
  refine ⟨hb 0, hb 1, ?_, ?_, ?_, ?_, hb 9, hb 10, hb 11, hb 12, hb 13, ?_, hb 18,
    hb 19, hb 20, hb 21, hb 22, hb 23, ?_, by decide⟩
  · rw [State.get_mode_code, h3, hm]
  · rw [State.get_disable_code, h7, hm]
  · rw [State.is_disabled, h7, hm]
  · rw [State.get_indexer_code, h3, hm]
  · rw [State.get_stop_code, h15, hm]
  · rw [State.get_info_code, h255, hm]

end Icepap

namespace Icepap

/-- Value of a decimal digit character, `none` otherwise. -/
def digVal (c : Char) : Option Nat :=
  if 48 ≤ c.toNat ∧ c.toNat ≤ 57 then some (c.toNat - 48) else none

def digitsValAux (acc : Nat) : List Char → Option Nat
  | [] => some acc
  | c :: t =>
    match digVal c with
    | some d => digitsValAux (10 * acc + d) t
    | none => none

/-- Value of a nonempty digit string, `none` otherwise. -/
def digitsVal : List Char → Option Nat
  | [] => none
  | c :: t => digitsValAux 0 (c :: t)

/-- Models Python `int(token)` on an optionally signed decimal token;
`none` models the `ValueError` raised on anything else. -/
def py_int (s : List Char) : Option Int :=
  match s with
  | [] => none
  | c :: t =>
    if c == '-' then (digitsVal t).map (fun n => -(n : Int))
    else if c == '+' then (digitsVal t).map (fun n => (n : Int))
    else (digitsVal (c :: t)).map (fun n => (n : Int))

/-- Models Python `list(map(int, tokens))`: all tokens must parse. -/
def map_int : List (List Char) → Option (List Int)
  | [] => some []
  | t :: ts =>
    match py_int t, map_int ts with
    | some v, some vs => some (v :: vs)
    | _, _ => none

/-- Decimal rendering of an address (Python `str(axis)`). -/
def natToChars (n : Nat) : List Char := (Nat.repr n).data

/-- Models Python `' '.join(items)`. -/
def joinSpace : List (List Char) → List Char
  | [] => []
  | [x] => x
  | x :: y :: t => x ++ (' ') :: joinSpace (y :: t)

/-- The command built by `IcePAPController.get_fpos` (controller.py
line 440): `?FPOS <register> <a1 a2 ...>`, addresses rendered by
`_alias2axisstr`. -/
def fposCmd (register : List Char) (axes : List Nat) : List Char :=
  ("?FPOS ").data ++ register ++ (' ') :: joinSpace (axes.map natToChars)

/-- Embeds `IcePAPController.get_fpos` (controller.py lines 432-442):
send the `?FPOS` command through send_cmd, then map `int` over the
returned tokens.  A `None` reply would make `list(map(int, None))`
raise a TypeError; an unparsable token raises ValueError. -/
def get_fpos (register : List Char) (axes : List Nat) (raw : List Char) :
    Except (List Char) (List Int) :=
  match send_cmd (fposCmd register axes) raw with
  | Except.error e => Except.error e
  | Except.ok none => Except.error (("TypeError").data)
  | Except.ok (some toks) =>
    match map_int toks with
    | none => Except.error (("ValueError").data)
    | some vals => Except.ok vals

/-- Embeds `get_ctrl_item` (utils.py lines 548-560).  The one-shot call
`f(axes)` is modelled by `bulk` (`none` when it raises) and the
per-axis call `f([axis])[0]` by `single` (`none` when it raises the
`RuntimeError` the fallback catches, replaced by the default). -/
def get_ctrl_item {α : Type} (bulk : Option (List α)) (single : Nat → Option α)
    (axes : List Nat) (dflt : α) : List α :=
  match bulk with
  | some res => res
  | none => axes.map (fun a => (single a).getD dflt)

theorem map_int_spec : ∀ (toks : List (List Char)) (vals : List Int),
    map_int toks = some vals →
    vals.length = toks.length ∧ ∀ i : Nat, (toks[i]?).bind py_int = vals[i]? := by
  intro toks
  induction toks with
  | nil =>
    intro vals h
    cases h
    exact ⟨rfl, fun i => by simp⟩
  | cons t ts ih =>
    intro vals h
    unfold map_int at h
    cases hv : py_int t with
    | none => rw [hv] at h; exact absurd h (by simp)
    | some v =>
      cases hvs : map_int ts with
      | none => rw [hv, hvs] at h; exact absurd h (by simp)
      | some vs =>
        rw [hv, hvs] at h
        have hval : vals = v :: vs := by
          have := h
          simp at this
          exact this.symm
        subst hval
        obtain ⟨hlen, hidx⟩ := ih vs hvs
        refine ⟨by simp [hlen], fun i => ?_⟩
        cases i with
        | zero => simp [hv]
        | succ n => simpa using hidx n

/-- Claim C6: a multi-axis get_fpos call over addresses a1..an whose
reply carries one token per axis returns the parsed values in order -
length n, element i the parse of token i, the token for axis ai; and
the Group per-axis fallback of get_ctrl_item returns one entry per
axis in input order, substituting the default for failed entries. -/
theorem spec_c6 (register : List Char) (axes : List Nat) (raw : List Char)
    (toks : List (List Char)) (vals : List Int)
    (hreply : send_cmd (fposCmd register axes) raw = Except.ok (some toks))
    (hlen : toks.length = axes.length)
    (hparse : map_int toks = some vals) :
    get_fpos register axes raw = Except.ok vals ∧
    vals.length = axes.length ∧
    (∀ i : Nat, (toks[i]?).bind py_int = vals[i]?) ∧
    ∀ {α : Type} (single : Nat → Option α) (dflt : α),
      (get_ctrl_item none single axes dflt).length = axes.length ∧
      ∀ i : Nat, (get_ctrl_item none single axes dflt)[i]?
        = (axes[i]?).map (fun a => (single a).getD dflt) := by
  obtain ⟨hvlen, hvidx⟩ := map_int_spec toks vals hparse
  refine ⟨?_, by omega, hvidx, ?_⟩
  · simp only [get_fpos, hreply, hparse]
  · intro α single dflt
    refine ⟨by simp [get_ctrl_item], fun i => ?_⟩
    simp [get_ctrl_item]

/-- Witness for C6: the literal scenario ?FPOS 1 5 with device reply
?FPOS 55 -3 returns [55, -3], and a fallback read over the same two
axes has two entries. -/
theorem spec_c6_witness :
    get_fpos (("AXIS").data) [1, 5] (("?FPOS 55 -3\r\n").data) = Except.ok [55, -3] ∧
    (get_ctrl_item (none : Option (List Int)) (fun a => if a = 1 then some 55 else none)
      [1, 5] 0).length = 2 := by
  have h := spec_c6 (("AXIS").data) [1, 5] (("?FPOS 55 -3\r\n").data)
    [("55").data, ("-3").data] [55, -3] (by decide) (by decide) (by decide)
  exact ⟨h.1, by simpa using (h.2.2.2 (fun a => if a = 1 then some 55 else none) 0).1⟩

end Icepap

namespace Icepap

/-- Embeds `IcePAPController.find_axes` (controller.py lines 254-278).
The controller replies are passed in already parsed from hexadecimal:
`sysstat` is the rack-present word read by `?SYSSTAT`, and `masks i`
the pair (present-word, alive-word) read by `?SYSSTAT i`.  The nested
loops append axis `i * 10 + j + 1` for each set rack bit i in 0..15
and set driver bit j in 0..7 of the chosen mask. -/
def find_axes (sysstat : Nat) (masks : Nat → Nat × Nat) (only_alive : Bool) : List Nat :=
  ((List.range 16).filter (fun i => decide (0 < sysstat &&& (1 <<< i)))).flatMap
    (fun i =>
      ((List.range 8).filter (fun j =>
          decide (0 < (if only_alive then (masks i).2 else (masks i).1) &&& (1 <<< j)))).map
        (fun j => i * 10 + j + 1))

/-- Embeds `IcePAPController.find_racks` (controller.py lines 280-287):
the indices of the set bits 0..15 of the `?SYSSTAT` word. -/
def find_racks (sysstat : Nat) : List Nat :=
  (List.range 16).filter (fun i => decide (0 < sysstat &&& (1 <<< i)))

/-- Claim C7: find_axes enumerates exactly the axes 10*i + j + 1 for
set rack bit i of the `?SYSSTAT` word and set driver bit j of the
chosen per-rack mask (present word when only_alive is false, alive word
when true), in strictly ascending order; find_racks returns the set
rack indices; and with `?SYSSTAT` giving 0x8001, rack 0 masks
0x11 0x11 and rack 15 masks 0x03 0x01, find_axes with only_alive true
equals [1, 5, 151] and find_racks equals [0, 15]. -/
theorem spec_c7 (sysstat : Nat) (masks : Nat → Nat × Nat) (oa : Bool) :
    (∀ a, a ∈ find_axes sysstat masks oa ↔
      ∃ i, i < 16 ∧ 0 < sysstat &&& (1 <<< i) ∧
        ∃ j, j < 8 ∧ 0 < (if oa then (masks i).2 else (masks i).1) &&& (1 <<< j) ∧
          a = i * 10 + j + 1) ∧
    (find_axes sysstat masks oa).Pairwise (fun x y => x < y) ∧
    (∀ i, i ∈ find_racks sysstat ↔ i < 16 ∧ 0 < sysstat &&& (1 <<< i)) ∧
    find_axes 0x8001
      (fun i => if i = 0 then (0x11, 0x11) else if i = 15 then (3, 1) else (0, 0)) true
      = [1, 5, 151] ∧
    find_racks 0x8001 = [0, 15] := by
  refine ⟨?_, ?_, ?_, by decide, by decide⟩
  · intro a
    simp only [find_axes, List.mem_flatMap, List.mem_filter, List.mem_range, List.mem_map,
      decide_eq_true_eq]
    constructor
    · rintro ⟨i, ⟨hi16, hibit⟩, j, ⟨hj8, hjbit⟩, rfl⟩
      exact ⟨i, hi16, hibit, j, hj8, hjbit, rfl⟩
    · rintro ⟨i, hi16, hibit, j, hj8, hjbit, rfl⟩
      exact ⟨i, ⟨hi16, hibit⟩, j, ⟨hj8, hjbit⟩, rfl⟩
  · rw [find_axes, List.pairwise_flatMap]
    constructor
    · intro i hi
      refine List.pairwise_map.mpr ?_
      refine List.Pairwise.imp ?_
        (((List.pairwise_lt_range 8).filter (fun j =>
          decide (0 < (if oa then (masks i).2 else (masks i).1) &&& (1 <<< j)))))
      intro a b hab
      omega
    · refine List.Pairwise.imp ?_
        (((List.pairwise_lt_range 16).filter (fun i =>
          decide (0 < sysstat &&& (1 <<< i)))))
      intro i j hij x hx y hy
      obtain ⟨jx, hjx, rfl⟩ := List.mem_map.mp hx
      obtain ⟨jy, hjy, rfl⟩ := List.mem_map.mp hy
      have hjx8 : jx < 8 := List.mem_range.mp (List.mem_filter.mp hjx).1
      have hjy8 : jy < 8 := List.mem_range.mp (List.mem_filter.mp hjy).1
      omega
  · intro i
    simp [find_racks]

end Icepap

namespace Icepap

/-- One write to the controller: an ASCII command through send_cmd or a
binary block through send_binary. -/
inductive WireEvent where
  | cmdSent (c : List Char)
  | binSent (words : List Nat)
  deriving DecidableEq

/-- The header command built by `IcePAPAxis.set_ecam_table` (axis.py
line 1825): `*ECAMDAT <source> <dtype>`. -/
def ecamdatCmd (source dtype : List Char) : List Char :=
  ("*ECAMDAT ").data ++ source ++ (' ') :: dtype

/-- Embeds `IcePAPAxis.set_ecam_table` (axis.py lines 1808-1827) as the
sequence of writes it performs: sort the position list ascending
(`lpos.sort()`), reinterpret it as unsigned 16-bit words
(`get_ushort_list`, with the per-value byte packing abstracted as
`enc`), raise ValueError over 40954 words, and otherwise send the
`*ECAMDAT` header command followed by one binary block. -/
def set_ecam_table {α : Type} [LinearOrder α] (enc : α → List Nat) (lpos : List α)
    (source dtype : List Char) : Except (List Char) (List WireEvent) :=
  let sorted := lpos.insertionSort (fun a b => a ≤ b)
  let lushorts := get_ushort_list enc sorted
  if 40954 < lushorts.length then Except.error (("ValueError").data)
  else Except.ok [WireEvent.cmdSent (ecamdatCmd source dtype), WireEvent.binSent lushorts]

/-- A stand-in 4-byte-per-value encoding used for concrete runs (the
FLOAT branch of get_ushort_list packs 4 bytes per value). -/
def enc4 (n : Nat) : List Nat := le_bytes 4 n

/-- Claim C8 is false as stated: loading a 3-value table issues exactly
two writes - the `*ECAMDAT AXIS FLOAT` header and one binary block of
6 words - and no `ECAM PULSE` follow-up command is sent. -/
theorem spec_c8_cex :
    set_ecam_table enc4 [0, 1, 2] (("AXIS").data) (("FLOAT").data) =
      Except.ok [WireEvent.cmdSent (("*ECAMDAT AXIS FLOAT").data),
        WireEvent.binSent [0, 0, 1, 0, 2, 0]] ∧
    (WireEvent.cmdSent (("ECAM PULSE").data)
        ∈ [WireEvent.cmdSent (("*ECAMDAT AXIS FLOAT").data),
          WireEvent.binSent ([0, 0, 1, 0, 2, 0] : List Nat)]) = False := by
  constructor
  · decide
  · simp only [eq_iff_iff, iff_false]
    decide

/-- Claim C8 (amended): for every position list, source and dtype,
set_ecam_table sorts the list ascending, reinterprets it as a uint16
sequence, rejects tables over 40954 words, and sends the
`*ECAMDAT source dtype` header command followed by exactly one binary
block holding the sorted table - and nothing else: no implicit
`ECAM PULSE` follow-up is sent. -/
theorem spec_c8 {α : Type} [LinearOrder α] (enc : α → List Nat) (lpos : List α)
    (source dtype : List Char)
    (hcap : (get_ushort_list enc (lpos.insertionSort (fun a b => a ≤ b))).length ≤ 40954) :
    set_ecam_table enc lpos source dtype =
      Except.ok [WireEvent.cmdSent (ecamdatCmd source dtype),
        WireEvent.binSent (get_ushort_list enc (lpos.insertionSort (fun a b => a ≤ b)))] ∧
    (lpos.insertionSort (fun a b => a ≤ b)).Sorted (fun a b => a ≤ b) ∧
    List.Perm (lpos.insertionSort (fun a b => a ≤ b)) lpos ∧
    ∀ e ∈ [WireEvent.cmdSent (ecamdatCmd source dtype),
        WireEvent.binSent (get_ushort_list enc (lpos.insertionSort (fun a b => a ≤ b)))],
      e ≠ WireEvent.cmdSent (("ECAM PULSE").data) := by
  refine ⟨?_, ?_, ?_, ?_⟩
  · rw [set_ecam_table, if_neg (by omega)]
  · exact List.sorted_insertionSort (fun a b => a ≤ b) lpos
  · exact List.perm_insertionSort (fun a b => a ≤ b) lpos
  · intro e he
    rcases List.mem_cons.mp he with rfl | he2
    · intro hcontra
      have hch : ecamdatCmd source dtype = (("ECAM PULSE").data) :=
        WireEvent.cmdSent.inj hcontra
      have hhead : (ecamdatCmd source dtype).head? = some ('*') := rfl
      rw [hch] at hhead
      exact absurd hhead (by decide)
    · rcases List.mem_cons.mp he2 with rfl | he3
      · intro hcontra
        exact WireEvent.noConfusion hcontra
      · exact absurd he3 (by simp)

/-- Witness for C8 (amended) at the 3-value table of the literal
scenario. -/
theorem spec_c8_witness :
    set_ecam_table enc4 [0, 1, 2] (("AXIS").data) (("FLOAT").data) =
      Except.ok [WireEvent.cmdSent (ecamdatCmd (("AXIS").data) (("FLOAT").data)),
        WireEvent.binSent (get_ushort_list enc4
          (([0, 1, 2] : List Nat).insertionSort (fun a b => a ≤ b)))] :=
  (spec_c8 enc4 [0, 1, 2] (("AXIS").data) (("FLOAT").data) (by decide)).1

end Icepap

namespace Icepap

/-- Embeds `IcePAPController.set_power` at the device level: every axis
in `addrs` gets power value `v`, all others keep their state.  The
device power state is a map from axis address to its power flag. -/
def set_power (st : Nat → Bool) (addrs : List Nat) (v : Bool) : Nat → Bool :=
  fun a => if a ∈ addrs then v else st a

/-- Embeds `Group.get_power`: the power flags of the group axes, in
group order. -/
def get_power (st : Nat → Bool) (axes : List Nat) : List Bool :=
  axes.map st

/-- The `to_power` list computed on entry of `ensure_power` (group.py
line 163): the axes whose measured power state differs from the
desired value. -/
def to_power (st : Nat → Bool) (axes : List Nat) (von : Bool) : List Nat :=
  axes.filter (fun a => st a != von)

/-- Device power state after the entry of `ensure_power` (group.py
lines 162-166): if any axis differs from the desired value, those axes
are set to it; otherwise nothing is written. -/
def ensure_power_body (st : Nat → Bool) (axes : List Nat) (von : Bool) : Nat → Bool :=
  if (to_power st axes von).isEmpty then st
  else set_power st (to_power st axes von) von

/-- Device power state after the exit of `ensure_power` (group.py lines
167-170): the finally block sets the same `to_power` axes to the
negated desired value, whether the body returned or raised; it runs the
write only when `to_power` is nonempty.  Assumes the body did not
itself change power states, as in the claim. -/
def ensure_power_final (st : Nat → Bool) (axes : List Nat) (von : Bool) : Nat → Bool :=
  if (to_power st axes von).isEmpty then ensure_power_body st axes von
  else set_power (ensure_power_body st axes von) (to_power st axes von) (!von)

/-- Claim C9: ensure_power flips on entry exactly the axes whose
measured power state differs from the desired value (afterwards every
group axis has the desired value, and axes outside `to_power` are
untouched), and on exit - which the finally block runs on normal
return and on an exception alike - flips back exactly those axes,
restoring the whole power state map to its entry value. -/
theorem spec_c9 (st : Nat → Bool) (axes : List Nat) (von : Bool) :
    (∀ a, a ∈ axes → ensure_power_body st axes von a = von) ∧
    (∀ a, a ∉ to_power st axes von → ensure_power_body st axes von a = st a) ∧
    (∀ a, a ∈ to_power st axes von → st a = !von) ∧
    ensure_power_final st axes von = st := by
  have hmem : ∀ a, a ∈ to_power st axes von ↔ a ∈ axes ∧ st a ≠ von := by
    intro a
    simp [to_power]
  refine ⟨?_, ?_, ?_, ?_⟩
  · intro a ha
    by_cases hin : a ∈ to_power st axes von
    · rw [ensure_power_body, if_neg (by simp [List.isEmpty_iff]; intro h; rw [h] at hin; simp at hin)]
      simp [set_power, hin]
    · have hsame : st a = von := by
        rcases Decidable.em (st a = von) with h | h
        · exact h
        · exact absurd ((hmem a).mpr ⟨ha, h⟩) hin
      rw [ensure_power_body]
      by_cases hemp : (to_power st axes von).isEmpty
      · rw [if_pos hemp]; exact hsame
      · rw [if_neg hemp]; simp [set_power, hin]; exact hsame
  · intro a hnin
    rw [ensure_power_body]
    by_cases hemp : (to_power st axes von).isEmpty
    · rw [if_pos hemp]
    · rw [if_neg hemp]; simp [set_power, hnin]
  · intro a ha
    have h := (hmem a).mp ha
    cases hst : st a <;> cases hv : von <;> simp_all
  · funext a
    rw [ensure_power_final]
    by_cases hemp : (to_power st axes von).isEmpty
    · rw [if_pos hemp, ensure_power_body, if_pos hemp]
    · rw [if_neg hemp]
      by_cases hin : a ∈ to_power st axes von
      · have h := (hmem a).mp hin
        have hst : st a = !von := by
          cases hstv : st a <;> cases hv : von <;> simp_all
        simp [set_power, hin, hst]
      · rw [ensure_power_body, if_neg hemp]
        simp [set_power, hin]

/-- Witness for C9: entry state axis 1 off, axis 5 on, desired on; the
scope powers axis 1 on for the body and exit restores the entry
state. -/
theorem spec_c9_witness :
    ensure_power_body (fun a => a == 5) [1, 5] true 1 = true ∧
    ensure_power_body (fun a => a == 5) [1, 5] true 5 = true ∧
    ensure_power_final (fun a => a == 5) [1, 5] true = (fun a => a == 5) := by
  have h := spec_c9 (fun a => a == 5) [1, 5] true
  exact ⟨h.1 1 (by decide), h.1 5 (by decide), h.2.2.2⟩

/-- The attribute names defined on `IcePAPCommunication`
(communication.py lines 44-132): note `is_conneted`, a misspelling of
`is_connected`. -/
def icepap_communication_attrs : List String :=
  ["host", "port", "timout", "send_cmd", "send_binary", "disconnect", "is_conneted"]

/-- Models Python attribute lookup: `some` when the class defines the
name, `none` for the `AttributeError` raised otherwise. -/
def getattr_lookup (attrs : List String) (name : String) : Option Unit :=
  if name ∈ attrs then some () else none

/-- Embeds the `IcePAPController.connected` property (controller.py
lines 215-217): it calls `self._comm.is_connected()`; `flag` is the
value that call would return if the method existed. -/
def controller_connected (attrs : List String) (flag : Bool) : Except String Bool :=
  match getattr_lookup attrs ("is_connected") with
  | none => Except.error ("AttributeError")
  | some _ => Except.ok flag

/-- Claim C10: reading the `connected` property always raises: the
communication class defines only the misspelled `is_conneted`, so the
`is_connected` lookup fails whatever the actual connection state. -/
theorem spec_c10 :
    controller_connected icepap_communication_attrs false = Except.error ("AttributeError") ∧
    controller_connected icepap_communication_attrs true = Except.error ("AttributeError") ∧
    (("is_conneted") ∈ icepap_communication_attrs) ∧
    (decide (("is_connected") ∈ icepap_communication_attrs) = false) := by
  refine ⟨?_, ?_, ?_, ?_⟩ <;> decide

end Icepap
